import Mathlib

/-!
Verification of the dynamic-typer repository's configuration / defaults
resolution and dynamic signature synthesis pipeline.

The Python modules are shallowly embedded:
* Python values are `PyVal`, runtime type tags are `PyType` (`type(v)`).
* Python `dict`s are ordered association lists (`List (String × α)`) with
  unique keys; `dget` is `d.get(k)` / `k in d`, `dinsert` is `d[k] = v`
  (replace in place when the key exists, append otherwise), `dupdate` is
  `d.update(other)` / `{**d, **other}`.
* Fallible code returns `Except String`; the external file system and the
  external parsing / discovery collaborators (`conf_finder`, `tomllib`,
  `yaml`, `json`) are an abstract `Fs` record of functions.
-/

set_option autoImplicit false

/-- Runtime type tags, the image of Python `type(...)` on the values we model. -/
inductive PyType where
  | str
  | int
  | bool
  | noneType
  | dictType
deriving DecidableEq

/-- Python values as they appear in configuration files, defaults and
keyword arguments.  `dict` makes the type nested so that a value can be a
mapping (the synthesized command bodies put the local `conf` dict into
`locals()`). -/
inductive PyVal where
  | str (s : String)
  | int (n : Int)
  | bool (b : Bool)
  | none
  | dict (d : List (String × PyVal))

/-- Python `type(v)` restricted to our value model. -/
def PyVal.typeOf : PyVal → PyType
  | PyVal.str _ => PyType.str
  | PyVal.int _ => PyType.int
  | PyVal.bool _ => PyType.bool
  | PyVal.none => PyType.noneType
  | PyVal.dict _ => PyType.dictType

/-- Embedding of `d.get(key)` on an ordered dict: first (unique) matching key. -/
def dget {α : Type} : List (String × α) → String → Option α
  | [], _ => Option.none
  | (k, v) :: rest, key => if k = key then some v else dget rest key

/-- Embedding of `d[key] = v` on an ordered dict: replace in place if the key exists,
append otherwise (CPython insertion-order semantics). -/
def dinsert {α : Type} : List (String × α) → String → α → List (String × α)
  | [], key, v => [(key, v)]
  | (k, w) :: rest, key, v =>
    if k = key then (k, v) :: rest else (k, w) :: dinsert rest key v

/-- Embedding of `d.update(other)`: insert every entry of `other` into `d` in order. -/
def dupdate {α : Type} (d other : List (String × α)) : List (String × α) :=
  other.foldl (fun acc p => dinsert acc p.1 p.2) d

theorem dget_dinsert {α : Type} (d : List (String × α)) (k key : String) (v : α) :
    dget (dinsert d k v) key = if k = key then some v else dget d key := by
  induction d with
  | nil => simp [dinsert, dget]
  | cons hd rest ih =>
    obtain ⟨k', w⟩ := hd
    by_cases h1 : k' = k
    · subst h1
      by_cases h2 : k' = key
      · subst h2; simp [dinsert, dget]
      · simp [dinsert, dget, h2]
    · by_cases h2 : k' = key
      · subst h2
        have hk : ¬ k = k' := fun h => h1 h.symm
        simp [dinsert, dget, h1, hk]
      · simp [dinsert, dget, h1, h2, ih]

theorem dget_eq_none_of_not_mem {α : Type} (d : List (String × α)) (key : String)
    (h : key ∉ d.map Prod.fst) : dget d key = Option.none := by
  induction d with
  | nil => simp [dget]
  | cons hd rest ih =>
    obtain ⟨k, v⟩ := hd
    simp only [List.map_cons, List.mem_cons] at h
    push_neg at h
    have hk : ¬ k = key := fun hkey => h.1 hkey.symm
    simp [dget, hk, ih h.2]

theorem dget_dupdate {α : Type} (other : List (String × α)) (d : List (String × α))
    (key : String) (h : (other.map Prod.fst).Nodup) :
    dget (dupdate d other) key
      = (dget other key).orElse (fun _ => dget d key) := by
  induction other generalizing d with
  | nil => simp [dupdate, dget, Option.orElse]
  | cons hd rest ih =>
    obtain ⟨k, v⟩ := hd
    simp only [List.map_cons, List.nodup_cons] at h
    have step : dupdate d ((k, v) :: rest) = dupdate (dinsert d k v) rest := rfl
    rw [step, ih (dinsert d k v) h.2]
    by_cases hk : k = key
    · subst hk
      have hnone : dget rest k = Option.none :=
        dget_eq_none_of_not_mem rest k h.1
      simp [dget, hnone, dget_dinsert, Option.orElse]
    · simp [dget, hk, dget_dinsert]

theorem dget_dupdate_isSome {α : Type} (other : List (String × α))
    (d : List (String × α)) (key : String) :
    (dget (dupdate d other) key).isSome
      ↔ (dget d key).isSome ∨ (dget other key).isSome := by
  induction other generalizing d with
  | nil => simp [dupdate, dget]
  | cons hd rest ih =>
    obtain ⟨k, v⟩ := hd
    have step : dupdate d ((k, v) :: rest) = dupdate (dinsert d k v) rest := rfl
    rw [step, ih (dinsert d k v)]
    by_cases hk : k = key
    · subst hk
      simp [dget, dget_dinsert]
    · simp [dget, hk, dget_dinsert]

/-! ## External collaborators

`Fs` packages the external file system and parsing collaborators used by
`dynamic_typer.utils` / `dynamic_typer.function_utils`: `conf_finder`'s
discovery (`ConfFinder(name, conf_type=...).conf(ext)`), `Path.is_file`,
and the three format parsers (`tomllib.load`, `yaml.safe_load`,
`json.load`).  A parsed configuration file is a dict of sections, each a
dict of values. -/

/-- Abstract file system / external-parser collaborators. -/
structure Fs where
  discover : String → String → String → String
  isFile : String → Bool
  parseToml : String → List (String × List (String × PyVal))
  parseYaml : String → List (String × List (String × PyVal))
  parseJson : String → List (String × List (String × PyVal))

/-- An entry of the caller-supplied `args` mapping in `utils.py` /
`class_utils.py`: the Python dict `{'type': ..., 'help': ..., 'default': ...}`. -/
structure ArgDict where
  type : PyType
  help : String
  default : PyVal

namespace Utils

/-- Embedding of `utils.read_conf` (identical in `function_utils.py`):
dispatch on the extension; `toml`, `yaml`/`yml` and `json` call the
corresponding external parser, anything else raises
`ValueError(f'Unsupported file extension: {ext}')`. -/
def read_conf (fs : Fs) (fileName : String) (ext : String) :
    Except String (List (String × List (String × PyVal))) :=
  if ext = "toml" then Except.ok (fs.parseToml fileName)
  else if ext = "yaml" ∨ ext = "yml" then Except.ok (fs.parseYaml fileName)
  else if ext = "json" then Except.ok (fs.parseJson fileName)
  else Except.error ("Unsupported file extension: " ++ ext)

/-- Embedding of `utils.get_conf` (identical in `function_utils.py` up to
the `cmd_name`/`command` parameter name).  When `conf_file` is empty the
path comes from `ConfFinder`, otherwise it is used verbatim.  The source
initialises `conf_dict = {}` but assigns the local `conf` only inside the
`if conf_path.is_file():` branch, so `return conf` raises
`UnboundLocalError` when the path is not an existing file; the `else`
branch below is that behaviour. -/
def get_conf (fs : Fs) (confName cmdName confFile confExt confType : String) :
    Except String (List (String × PyVal)) :=
  let confPath := if confFile = "" then fs.discover confName confType confExt else confFile
  if fs.isFile confPath then
    match read_conf fs confPath confExt with
    | Except.ok confDict =>
      Except.ok (dupdate ((dget confDict "global").getD [])
        ((dget confDict cmdName).getD []))
    | Except.error e => Except.error e
  else
    Except.error "UnboundLocalError: local variable conf referenced before assignment"

/-- Embedding of `lstrip` with dashes on the character list: drop leading dashes. -/
def dropLeadingDashes : List Char → List Char
  | [] => []
  | c :: rest => if c = '-' then dropLeadingDashes rest else c :: rest

/-- Embedding of `token.lstrip` with the dash character. -/
def pyLstripDash (s : String) : String := String.mk (dropLeadingDashes s.data)

/-- Embedding of `name.replace` turning dashes into underscores. -/
def dashesToUnderscores (s : String) : String :=
  String.mk (s.data.map fun c => if c = '-' then '_' else c)

/-- Embedding of `token.startswith` with a double dash. -/
def startsWithDashDash (s : String) : Bool :=
  match s.data with
  | c1 :: c2 :: _ => c1 = '-' ∧ c2 = '-'
  | _ => false

/-- The `while` loop of `utils.sys_args`: scan the remaining tokens, stop
at a bare `--`, and for each token starting with `--` whose normalised
name is in `arg_names`, record the name (once) and skip the following
token (`i += 1` inside the branch plus `i += 1` at the end of the loop). -/
def sysArgsLoop (argNames : List String) : List String → List String → List String
  | acc, [] => acc
  | acc, tok :: rest =>
    if tok = "--" then acc
    else if startsWithDashDash tok then
      let name := dashesToUnderscores (pyLstripDash tok)
      if name ∈ argNames then
        let acc2 := if name ∈ acc then acc else acc ++ [name]
        match rest with
        | [] => acc2
        | _ :: rest2 => sysArgsLoop argNames acc2 rest2
      else sysArgsLoop argNames acc rest
    else sysArgsLoop argNames acc rest

/-- Embedding of `utils.sys_args` (identical in `function_utils.py`);
`argv` is `sys.argv` (the program name included). -/
def sys_args (argv : List String) (argNames : List String) : List String :=
  sysArgsLoop argNames [] argv

/-- Embedding of `utils.parse_args`: keep the entries of `input_args`
whose key appears among the flags found on the command line. -/
def parse_args (argv : List String) (inputArgs : List (String × PyVal))
    (argNames : List String) : List (String × PyVal) :=
  let sa := sys_args argv argNames
  inputArgs.filter fun p => p.1 ∈ sa

/-- The reserved `conf_file` arg spec inserted by `utils.make_cmd_func` /
`function_utils.make_cmd_func` when `use_conf` is true. -/
def confFileArg : ArgDict :=
  { type := PyType.str, help := "Path to the configuration file", default := PyVal.str "" }

/-- The argument-map preparation at the top of `utils.make_cmd_func`:
`args = deepcopy(args)` then, when `use_conf`, `args['conf_file'] = {...}`.
The deep copy means the caller's mapping is untouched (see the `Store`
model below); here we return the working copy. -/
def makeCmdArgs (args : List (String × ArgDict)) (useConf : Bool) :
    List (String × ArgDict) :=
  if useConf then dinsert args "conf_file" confFileArg else args

/-- The formal parameter list of the function built by
`utils.make_cmd_func` via `', '.join(args)` and `exec`. -/
def make_cmd_func_params (args : List (String × ArgDict)) (useConf : Bool) :
    List String :=
  (makeCmdArgs args useConf).map Prod.fst

/-- Embedding of the `__defaults__` tuple set by `utils.make_cmd_func`. -/
def make_cmd_func_defaults (args : List (String × ArgDict)) (useConf : Bool) :
    List PyVal :=
  (makeCmdArgs args useConf).map fun p => p.2.default

/-- Coercion of a Python value to the string expected by `get_conf`'s
`conf_file` parameter (the synthesized parameter is annotated `str`). -/
def asString : PyVal → String
  | PyVal.str s => s
  | _ => ""

/-- Semantics of the body `exec`-ed by `utils.make_cmd_func`, returning
the keyword mapping passed to `cmd_obj(**conf)` (function handler) or
`cmd_obj(**conf).run()` (class handler):

* `conf = get_conf(conf_name=app_name, cmd_name=cmd_name, conf_file=conf_file, ...)`
  when `use_conf`, else `conf = {}`;
* `conf.update(parse_args(locals(), list(args)))` — at that point
  `locals()` is the formal parameters with the local `conf` bound as well,
  which `dinsert locals0 "conf" (PyVal.dict conf)` reproduces.

`locals0` is the mapping from formal parameter names to the values the
CLI dispatcher passes in. -/
def synth_invoke (fs : Fs) (argv : List String) (appName cmdName : String)
    (args0 : List (String × ArgDict)) (useConf : Bool) (confExt confType : String)
    (locals0 : List (String × PyVal)) : Except String (List (String × PyVal)) :=
  let args := makeCmdArgs args0 useConf
  let confE : Except String (List (String × PyVal)) :=
    if useConf then
      get_conf fs appName cmdName
        (asString ((dget locals0 "conf_file").getD (PyVal.str ""))) confExt confType
    else Except.ok []
  match confE with
  | Except.ok conf =>
    Except.ok (dupdate conf
      (parse_args argv (dinsert locals0 "conf" (PyVal.dict conf)) (args.map Prod.fst)))
  | Except.error e => Except.error e

/-! ### Heap model for the `deepcopy` frame property

`Store` is a tiny heap of `args` dicts addressed by `Nat` references, so
that the difference between mutating the caller's dict and mutating a
copy is observable.  `make_cmd_func_heap` performs exactly the mutating
prefix of `utils.make_cmd_func` (identical in `function_utils.py`):
`args = deepcopy(args)` allocates a fresh reference holding a copy, and
`args['conf_file'] = {...}` writes through the fresh reference only. -/

structure Store where
  dicts : List (List (String × ArgDict))

def Store.get (s : Store) (r : Nat) : List (String × ArgDict) :=
  s.dicts.getD r []

def Store.alloc (s : Store) (d : List (String × ArgDict)) : Store × Nat :=
  ({ dicts := s.dicts ++ [d] }, s.dicts.length)

def Store.set (s : Store) (r : Nat) (d : List (String × ArgDict)) : Store :=
  { dicts := s.dicts.set r d }

/-- The mutating prefix of `utils.make_cmd_func` on the heap: returns the
final heap and the reference to the working copy. -/
def make_cmd_func_heap (s : Store) (argsRef : Nat) (useConf : Bool) : Store × Nat :=
  let copy := Store.alloc s (Store.get s argsRef)
  let s1 := copy.1
  let r := copy.2
  if useConf then
    (Store.set s1 r (dinsert (Store.get s1 r) "conf_file" confFileArg), r)
  else (s1, r)

end Utils

namespace ClassUtils

/-- Embedding of the `WrappedClass.__init__` produced by
`class_utils.typer_decorator(args)`: reject the first keyword whose name
is not a key of `args` (`ValueError(f'Unknown parameter: {k}')`), then
set every declared attribute to the supplied keyword value or, failing
that, to the declared default.  The result is the attribute mapping of
the constructed object. -/
def wrapped_init (args : List (String × ArgDict)) (kw : List (String × PyVal)) :
    Except String (List (String × PyVal)) :=
  match kw.find? (fun p => (dget args p.1).isNone) with
  | some p => Except.error ("Unknown parameter: " ++ p.1)
  | Option.none => Except.ok (args.map fun kv => (kv.1, (dget kw kv.1).getD kv.2.default))

end ClassUtils

namespace DynTyper

/-- Typer parameter metadata (`typer.models.ArgumentInfo` /
`typer.models.OptionInfo`), reduced to the help text the pipeline sets. -/
inductive TyperInfo where
  | argumentInfo (help : String)
  | optionInfo (help : String)

/-- An element of `Annotated[...].__metadata__`: either Typer parameter
metadata (which passes the `isinstance` check in `get_args_from_func`) or
anything else. -/
inductive MetaEntry where
  | paramInfo (i : TyperInfo)
  | other

/-- A handler parameter's declared annotation as `inspect` reports it:
absent (`inspect.Parameter.empty`), a plain type, or an
`Annotated[origin, *metadata]` alias (`typing_extensions._AnnotatedAlias`). -/
inductive Annot where
  | empty
  | plain (t : PyType)
  | annotatedAlias (origin : PyType) (metadata : List MetaEntry)

/-- One entry of `inspect.signature(func).parameters`: the parameter name,
its annotation, and its declared default (`Option.none` stands for
`inspect.Parameter.empty`). -/
structure Param where
  name : String
  annot : Annot
  default : Option PyVal

/-- Embedding of the `TyperArg` dataclass of `dynamic_typer.py`
(`type=None`, `info=None`, `default=inspect.Parameter.empty`;
`Option.none` stands for the respective sentinel). -/
structure TyperArg where
  type : Option PyType := Option.none
  info : Option TyperInfo := Option.none
  default : Option PyVal := Option.none

/-- Embedding of `dynamic_typer.get_cmd_conf`: `{**global_conf, **cmd_conf}`
built from the `global` section and the section named after the command. -/
def get_cmd_conf (conf : List (String × List (String × PyVal))) (cmdName : String) :
    List (String × PyVal) :=
  dupdate (dupdate [] ((dget conf "global").getD []))
    ((dget conf cmdName).getD [])

/-- The default-resolution block of `get_args_from_func`:
`if name in conf: arg.default = conf[name]`,
`elif arg.default is not inspect.Parameter.empty: pass`,
`else: arg.default = param.default`. -/
def resolve_default (conf : List (String × PyVal)) (name : String)
    (param : Param) (arg : TyperArg) : TyperArg :=
  match dget conf name with
  | some v => { arg with default := some v }
  | Option.none =>
    match arg.default with
    | some _ => arg
    | Option.none => { arg with default := param.default }

/-- The type-resolution block of `get_args_from_func`: when `arg.type` is
still `None`, take the annotation (unwrapping one `Annotated` layer and
capturing leading Typer metadata), else the type of the resolved default,
else `str`. -/
def resolve_type (param : Param) (arg : TyperArg) : TyperArg :=
  match arg.type with
  | some _ => arg
  | Option.none =>
    match param.annot with
    | Annot.annotatedAlias origin metadata =>
      { arg with
        type := some origin
        info :=
          match metadata.head? with
          | some (MetaEntry.paramInfo i) => some i
          | _ => arg.info }
    | Annot.plain t => { arg with type := some t }
    | Annot.empty =>
      match arg.default with
      | some v => { arg with type := some v.typeOf }
      | Option.none => { arg with type := some PyType.str }

/-- Embedding of the line setting `arg.info` to itself or a fresh `typer.Argument` with generated help text. -/
def set_info (name : String) (arg : TyperArg) : TyperArg :=
  { arg with
    info :=
      match arg.info with
      | some i => some i
      | Option.none => some (TyperInfo.argumentInfo ("Set " ++ name ++ ".")) }

/-- The whole per-parameter body of the `get_args_from_func` loop. -/
def resolveArg (conf : List (String × PyVal)) (name : String) (param : Param)
    (arg : TyperArg) : TyperArg :=
  set_info name (resolve_type param (resolve_default conf name param arg))

/-- Embedding of `dynamic_typer.get_args_from_func`: walk the signature's
parameters in order, skip `self`/`cls`, start from the caller's spec
(`args.get(name, TyperArg())`) and resolve default, type and info. -/
def get_args_from_func (params : List Param) (args : List (String × TyperArg))
    (conf : List (String × PyVal)) : List (String × TyperArg) :=
  match params with
  | [] => []
  | p :: rest =>
    if p.name = "self" ∨ p.name = "cls" then get_args_from_func rest args conf
    else (p.name, resolveArg conf p.name p ((dget args p.name).getD {}))
      :: get_args_from_func rest args conf

/-- The observable signature of the callable built by
`dynamic_typer.make_cmd_func` (`exec`-ed `def name(<keys>): return
func(**locals())` followed by `set_args`): name, formal parameter list,
`__defaults__` and the per-parameter annotation data. -/
structure SynthSig where
  name : String
  params : List String
  defaults : List (Option PyVal)
  annots : List (String × Option PyType × Option TyperInfo)

/-- Embedding of `dynamic_typer.make_cmd_func` (signature part): resolve
the spec map against `get_cmd_conf(conf, name)` and synthesize. -/
def make_cmd_func (funcParams : List Param) (name : String)
    (args : List (String × TyperArg))
    (conf : List (String × List (String × PyVal))) : SynthSig :=
  let cmd_args := get_args_from_func funcParams args (get_cmd_conf conf name)
  { name := name
    params := cmd_args.map Prod.fst
    defaults := cmd_args.map fun p => p.2.default
    annots := cmd_args.map fun p => (p.1, p.2.type, p.2.info) }

end DynTyper

namespace DynTyper

theorem set_info_default (name : String) (arg : TyperArg) :
    (set_info name arg).default = arg.default := rfl

theorem resolve_type_default (param : Param) (arg : TyperArg) :
    (resolve_type param arg).default = arg.default := by
  obtain ⟨t, i, d⟩ := arg
  unfold resolve_type
  cases t with
  | some t => rfl
  | none =>
    cases param.annot with
    | empty => cases d <;> rfl
    | plain t => rfl
    | annotatedAlias origin metadata => rfl

/-- The resolved default is the first of: configuration value, caller-spec
default, handler-declared default. -/
theorem resolveArg_default (conf : List (String × PyVal)) (name : String)
    (param : Param) (arg : TyperArg) :
    (resolveArg conf name param arg).default
      = (dget conf name).orElse
          (fun _ => arg.default.orElse (fun _ => param.default)) := by
  unfold resolveArg
  rw [set_info_default, resolve_type_default]
  obtain ⟨t, i, d⟩ := arg
  unfold resolve_default
  cases dget conf name with
  | some v => rfl
  | none => cases d <;> rfl

/-- The type contributed by the handler's declared annotation: the plain
annotation, or the origin of one `Annotated` layer, or nothing. -/
def annotType : Annot → Option PyType
  | Annot.empty => Option.none
  | Annot.plain t => some t
  | Annot.annotatedAlias origin _ => some origin

/-- The resolved type is the first of: caller-spec type, annotation type
(one `Annotated` layer unwrapped), the runtime type of the resolved
default, the text type. -/
theorem resolveArg_type (conf : List (String × PyVal)) (name : String)
    (param : Param) (arg : TyperArg) :
    (resolveArg conf name param arg).type
      = some ((arg.type.orElse
            (fun _ => (annotType param.annot).orElse
              (fun _ => ((dget conf name).orElse
                  (fun _ => arg.default.orElse (fun _ => param.default))).map
                PyVal.typeOf))).getD PyType.str) := by
  obtain ⟨t0, i0, d0⟩ := arg
  unfold resolveArg set_info resolve_type resolve_default annotType
  cases t0 with
  | some t =>
    cases dget conf name with
    | some v => rfl
    | none => cases d0 <;> rfl
  | none =>
    cases param.annot with
    | empty =>
      cases dget conf name with
      | some v => rfl
      | none =>
        cases d0 with
        | some w => rfl
        | none => cases param.default <;> rfl
    | plain t =>
      cases dget conf name with
      | some v => rfl
      | none => cases d0 <;> rfl
    | annotatedAlias origin metadata =>
      cases dget conf name with
      | some v => rfl
      | none => cases d0 <;> rfl

/-- Looking up a non-`self`/`cls` parameter of the handler in the resolved
spec map gives exactly the resolution of that parameter. -/
theorem get_args_from_func_dget (params : List Param)
    (args : List (String × TyperArg)) (conf : List (String × PyVal))
    (p : Param) (hp : p ∈ params) (hself : p.name ≠ "self") (hcls : p.name ≠ "cls")
    (hnd : (params.map Param.name).Nodup) :
    dget (get_args_from_func params args conf) p.name
      = some (resolveArg conf p.name p ((dget args p.name).getD {})) := by
  induction params with
  | nil => cases hp
  | cons q rest ih =>
    simp only [List.map_cons, List.nodup_cons] at hnd
    rcases List.mem_cons.mp hp with hq | hrest
    · subst hq
      have hskip : ¬ (p.name = "self" ∨ p.name = "cls") := by
        intro h; rcases h with h | h
        · exact hself h
        · exact hcls h
      simp [get_args_from_func, hskip, dget]
    · by_cases hskip : q.name = "self" ∨ q.name = "cls"
      · simp only [get_args_from_func, hskip, if_pos]
        exact ih hrest hnd.2
      · have hne : ¬ q.name = p.name := by
          intro h
          exact hnd.1 (h ▸ List.mem_map_of_mem Param.name hrest)
        simp only [get_args_from_func, hskip, if_neg, not_false_iff, dget, hne]
        exact ih hrest hnd.2

/-- The keys of the resolved spec map are the handler's parameter names in
order, `self`/`cls` removed, whatever the configuration is. -/
theorem get_args_from_func_keys (params : List Param)
    (args : List (String × TyperArg)) (conf : List (String × PyVal)) :
    (get_args_from_func params args conf).map Prod.fst
      = (params.filter (fun p => ¬ (p.name = "self" ∨ p.name = "cls"))).map Param.name := by
  induction params with
  | nil => rfl
  | cons q rest ih =>
    by_cases hskip : q.name = "self" ∨ q.name = "cls"
    · simp [get_args_from_func, hskip, List.filter, ih]
    · simp [get_args_from_func, hskip, List.filter, ih]

end DynTyper

/-! ## Claims -/

/-- A concrete collaborator record on which no path is an existing file
and every parser returns the empty mapping; used for concrete evaluations. -/
def fsNone : Fs :=
  { discover := fun _ _ _ => "/discovered/none"
    isFile := fun _ => false
    parseToml := fun _ => []
    parseYaml := fun _ => []
    parseJson := fun _ => [] }

/-- Claim C1: the claim says `get_conf` returns an empty mapping and
raises no error when the resolved path is not an existing file.  The code
of `utils.get_conf` / `function_utils.get_conf` instead raises
`UnboundLocalError` there: the source initialises `conf_dict = {}` but
the returned local `conf` is only assigned inside the
`if conf_path.is_file():` branch.  This theorem evaluates the embedding at
such an input and exhibits the error. -/
theorem get_conf_missing_file_raises :
    Utils.get_conf fsNone "app" "cmd" "/no/such/file.toml" "toml" "both"
      = Except.error "UnboundLocalError: local variable conf referenced before assignment" :=
  rfl

/-- Claim C6: `read_conf` raises `UnsupportedFormat` naming the offending
extension for every extension outside `toml`, `yaml`/`yml`, `json`, and
returns a parsed mapping (never that error) for the recognized ones. -/
theorem read_conf_extension_dispatch (fs : Fs) (fileName ext : String) :
    ((ext ≠ "toml" ∧ ext ≠ "yaml" ∧ ext ≠ "yml" ∧ ext ≠ "json") →
      Utils.read_conf fs fileName ext
        = Except.error ("Unsupported file extension: " ++ ext)) ∧
    ((ext = "toml" ∨ ext = "yaml" ∨ ext = "yml" ∨ ext = "json") →
      ∃ d, Utils.read_conf fs fileName ext = Except.ok d) := by
  constructor
  · rintro ⟨h1, h2, h3, h4⟩
    simp [Utils.read_conf, h1, h2, h3, h4]
  · rintro (h | h | h | h) <;> subst h <;> simp [Utils.read_conf]

/-- Witness for C6: extension `xml` raises with a message naming `xml`,
extension `toml` parses. -/
theorem read_conf_extension_dispatch_witness :
    (("xml" ≠ "toml" ∧ "xml" ≠ "yaml" ∧ "xml" ≠ "yml" ∧ "xml" ≠ "json") ∧
      Utils.read_conf fsNone "config.xml" "xml"
        = Except.error "Unsupported file extension: xml") ∧
    (("toml" = "toml" ∨ "toml" = "yaml" ∨ "toml" = "yml" ∨ "toml" = "json") ∧
      ∃ d, Utils.read_conf fsNone "config.toml" "toml" = Except.ok d) :=
  ⟨⟨by decide, (read_conf_extension_dispatch fsNone "config.xml" "xml").1 (by decide)⟩,
   ⟨Or.inl rfl,
    (read_conf_extension_dispatch fsNone "config.toml" "toml").2 (Or.inl rfl)⟩⟩

/-- Claim C3: the merged per-command configuration contains every key of
the `global` section and every key of the command-named section, and a
key present in both gets the command-section value. -/
theorem get_cmd_conf_merge (conf : List (String × List (String × PyVal)))
    (cmdName : String)
    (hnd : (((dget conf cmdName).getD []).map Prod.fst).Nodup) :
    (∀ k, ((dget ((dget conf "global").getD []) k).isSome ∨
        (dget ((dget conf cmdName).getD []) k).isSome) →
      (dget (DynTyper.get_cmd_conf conf cmdName) k).isSome) ∧
    (∀ k v, dget ((dget conf cmdName).getD []) k = some v →
      dget (DynTyper.get_cmd_conf conf cmdName) k = some v) := by
  constructor
  · intro k hk
    unfold DynTyper.get_cmd_conf
    apply (dget_dupdate_isSome _ _ _).mpr
    rcases hk with hg | hc
    · exact Or.inl ((dget_dupdate_isSome _ _ _).mpr (Or.inr hg))
    · exact Or.inr hc
  · intro k v hv
    unfold DynTyper.get_cmd_conf
    rw [dget_dupdate _ _ _ hnd, hv]
    rfl

/-- Witness for C3: the spec scenario `[global] key1 = "value1"`,
`[cmd] key2 = "value2"` merged for command `cmd`. -/
theorem get_cmd_conf_merge_witness :
    ((((dget [("global", [("key1", PyVal.str "value1")]),
          ("cmd", [("key2", PyVal.str "value2")])] "cmd").getD
        []).map Prod.fst).Nodup) ∧
    DynTyper.get_cmd_conf
        [("global", [("key1", PyVal.str "value1")]),
          ("cmd", [("key2", PyVal.str "value2")])] "cmd"
      = [("key1", PyVal.str "value1"), ("key2", PyVal.str "value2")] ∧
    dget (DynTyper.get_cmd_conf
        [("global", [("key1", PyVal.str "value1")]),
          ("cmd", [("key2", PyVal.str "value2")])] "cmd") "key2"
      = some (PyVal.str "value2") :=
  ⟨by decide, rfl,
   (get_cmd_conf_merge
      [("global", [("key1", PyVal.str "value1")]),
        ("cmd", [("key2", PyVal.str "value2")])] "cmd" (by decide)).2
     "key2" (PyVal.str "value2") rfl⟩

/-- Claim C4: the constructor synthesized for a decorated class rejects a
keyword whose name is not among the declared args, naming the offending
key; with no keywords every declared attribute is its default, and a
supplied declared keyword overrides the default. -/
theorem typer_decorator_init_spec (args : List (String × ArgDict))
    (kw : List (String × PyVal)) :
    ((∃ p, p ∈ kw ∧ dget args p.1 = Option.none) →
      ∃ k, dget args k = Option.none ∧ (∃ q, q ∈ kw ∧ q.1 = k) ∧
        ClassUtils.wrapped_init args kw
          = Except.error ("Unknown parameter: " ++ k)) ∧
    ((∀ p, p ∈ kw → (dget args p.1).isSome) →
      ClassUtils.wrapped_init args kw
        = Except.ok (args.map fun kv => (kv.1, (dget kw kv.1).getD kv.2.default))) := by
  constructor
  · rintro ⟨p, hmem, hnone⟩
    have hfind : (kw.find? (fun q => (dget args q.1).isNone)).isSome := by
      cases hf : kw.find? (fun q => (dget args q.1).isNone) with
      | some q => rfl
      | none =>
        have := List.find?_eq_none.mp hf p hmem
        simp [hnone] at this
    obtain ⟨q, hq⟩ := Option.isSome_iff_exists.mp hfind
    refine ⟨q.1, ?_, ⟨q, List.mem_of_find?_eq_some hq, rfl⟩, ?_⟩
    · have hp := List.find?_some hq
      simpa [Option.isNone_iff_eq_none] using hp
    · unfold ClassUtils.wrapped_init
      rw [hq]
  · intro hall
    have hfind : kw.find? (fun q => (dget args q.1).isNone) = Option.none := by
      apply List.find?_eq_none.mpr
      intro q hq
      have hs := hall q hq
      cases h : dget args q.1 with
      | some v => simp [h]
      | none => rw [h] at hs; simp at hs
    unfold ClassUtils.wrapped_init
    rw [hfind]

/-- Witness for C4: declared `{a: 10}` constructed with no keywords gives
attribute `a == 10`; declaring nothing and constructing with `a="x"`
raises `Unknown parameter: a`. -/
theorem typer_decorator_init_spec_witness :
    ClassUtils.wrapped_init
        [("a", { type := PyType.int, help := "Set a.", default := PyVal.int 10 })] []
      = Except.ok [("a", PyVal.int 10)] ∧
    (∃ k, dget ([] : List (String × ArgDict)) k = Option.none ∧
      (∃ q, q ∈ [("a", PyVal.str "x")] ∧ q.1 = k) ∧
      ClassUtils.wrapped_init [] [("a", PyVal.str "x")]
        = Except.error ("Unknown parameter: " ++ k)) :=
  ⟨(typer_decorator_init_spec
      [("a", { type := PyType.int, help := "Set a.", default := PyVal.int 10 })] []).2
      (fun p hp => absurd hp (List.not_mem_nil p)),
   (typer_decorator_init_spec [] [("a", PyVal.str "x")]).1
      ⟨("a", PyVal.str "x"), List.mem_singleton.mpr rfl, rfl⟩⟩

/-- Claim C2: for a handler parameter present in the resolved
configuration the resolved default is the configuration value, whatever
the caller-spec or handler defaults are; otherwise the caller-spec
default if it is set, else the handler's declared default, else no
default (`Option.none` = `inspect.Parameter.empty`). -/
theorem get_args_default_precedence (params : List DynTyper.Param)
    (args : List (String × DynTyper.TyperArg)) (conf : List (String × PyVal))
    (p : DynTyper.Param) (hp : p ∈ params) (hself : p.name ≠ "self")
    (hcls : p.name ≠ "cls") (hnd : (params.map DynTyper.Param.name).Nodup) :
    ∃ arg, dget (DynTyper.get_args_from_func params args conf) p.name = some arg ∧
      arg.default = (dget conf p.name).orElse
        (fun _ => (((dget args p.name).getD {}).default).orElse
          (fun _ => p.default)) :=
  ⟨_, DynTyper.get_args_from_func_dget params args conf p hp hself hcls hnd,
    DynTyper.resolveArg_default conf p.name p ((dget args p.name).getD {})⟩

/-- Witness for C2: a parameter `x` with handler default `1` and a
configuration entry `x = "v"` resolves to the configuration value. -/
theorem get_args_default_precedence_witness :
    (⟨"x", DynTyper.Annot.empty, some (PyVal.int 1)⟩ : DynTyper.Param)
        ∈ [(⟨"x", DynTyper.Annot.empty, some (PyVal.int 1)⟩ : DynTyper.Param)] ∧
    (∃ arg, dget (DynTyper.get_args_from_func
          [⟨"x", DynTyper.Annot.empty, some (PyVal.int 1)⟩] []
          [("x", PyVal.str "v")]) "x" = some arg ∧
      arg.default = some (PyVal.str "v")) :=
  ⟨List.mem_singleton.mpr rfl,
   get_args_default_precedence
      [⟨"x", DynTyper.Annot.empty, some (PyVal.int 1)⟩] [] [("x", PyVal.str "v")]
      ⟨"x", DynTyper.Annot.empty, some (PyVal.int 1)⟩
      (List.mem_singleton.mpr rfl) (by decide) (by decide) (by decide)⟩

/-- Claim C5: the resolved type is the caller-spec type if set; else the
handler's declared annotation (one `Annotated` layer unwrapped to its
origin); else the runtime type of the resolved default when one exists;
else `str`. -/
theorem get_args_type_precedence (params : List DynTyper.Param)
    (args : List (String × DynTyper.TyperArg)) (conf : List (String × PyVal))
    (p : DynTyper.Param) (hp : p ∈ params) (hself : p.name ≠ "self")
    (hcls : p.name ≠ "cls") (hnd : (params.map DynTyper.Param.name).Nodup) :
    ∃ arg, dget (DynTyper.get_args_from_func params args conf) p.name = some arg ∧
      arg.type = some (((((dget args p.name).getD {}).type).orElse
        (fun _ => (DynTyper.annotType p.annot).orElse
          (fun _ => ((dget conf p.name).orElse
            (fun _ => (((dget args p.name).getD {}).default).orElse
              (fun _ => p.default))).map PyVal.typeOf))).getD PyType.str) :=
  ⟨_, DynTyper.get_args_from_func_dget params args conf p hp hself hcls hnd,
    DynTyper.resolveArg_type conf p.name p ((dget args p.name).getD {})⟩

/-- Witness for C5: a parameter with no caller spec, no annotation, no
handler default and no configuration entry resolves to the text type. -/
theorem get_args_type_precedence_witness :
    (⟨"x", DynTyper.Annot.empty, Option.none⟩ : DynTyper.Param)
        ∈ [(⟨"x", DynTyper.Annot.empty, Option.none⟩ : DynTyper.Param)] ∧
    (∃ arg, dget (DynTyper.get_args_from_func
          [⟨"x", DynTyper.Annot.empty, Option.none⟩] [] []) "x" = some arg ∧
      arg.type = some PyType.str) :=
  ⟨List.mem_singleton.mpr rfl,
   get_args_type_precedence [⟨"x", DynTyper.Annot.empty, Option.none⟩] [] []
      ⟨"x", DynTyper.Annot.empty, Option.none⟩
      (List.mem_singleton.mpr rfl) (by decide) (by decide) (by decide)⟩

/-- Claim C7: the formal parameter list of the callable synthesized by
`dynamic_typer.make_cmd_func` is exactly the keys of the resolved spec
map, which are the handler's parameter names in their original order with
`self`/`cls` removed; the right-hand side does not mention the
configuration, so configuration-sourced defaults cannot change the
order. -/
theorem make_cmd_func_param_order (funcParams : List DynTyper.Param)
    (name : String) (args : List (String × DynTyper.TyperArg))
    (conf : List (String × List (String × PyVal))) :
    (DynTyper.make_cmd_func funcParams name args conf).params
        = (DynTyper.get_args_from_func funcParams args
            (DynTyper.get_cmd_conf conf name)).map Prod.fst ∧
    (DynTyper.make_cmd_func funcParams name args conf).params
        = (funcParams.filter
            (fun p => ¬ (p.name = "self" ∨ p.name = "cls"))).map DynTyper.Param.name :=
  ⟨rfl, DynTyper.get_args_from_func_keys funcParams args _⟩

/-- Witness for C7: a handler `(self, x, y)` with a configuration default
for `y` synthesizes the parameter list `[x, y]`. -/
theorem make_cmd_func_param_order_witness :
    (DynTyper.make_cmd_func
        [⟨"self", DynTyper.Annot.empty, Option.none⟩,
          ⟨"x", DynTyper.Annot.empty, Option.none⟩,
          ⟨"y", DynTyper.Annot.empty, some (PyVal.int 3)⟩] "cmd" []
        [("global", [("y", PyVal.int 5)])]).params
      = ["x", "y"] :=
  (make_cmd_func_param_order
      [⟨"self", DynTyper.Annot.empty, Option.none⟩,
        ⟨"x", DynTyper.Annot.empty, Option.none⟩,
        ⟨"y", DynTyper.Annot.empty, some (PyVal.int 3)⟩] "cmd" []
      [("global", [("y", PyVal.int 5)])]).2

theorem dinsert_append_of_not_mem {α : Type} (d : List (String × α))
    (k : String) (v : α) (h : k ∉ d.map Prod.fst) :
    dinsert d k v = d ++ [(k, v)] := by
  induction d with
  | nil => rfl
  | cons hd rest ih =>
    obtain ⟨k', w⟩ := hd
    simp only [List.map_cons, List.mem_cons] at h
    push_neg at h
    have hk : ¬ k' = k := fun he => h.1 he.symm
    simp [dinsert, hk, ih h.2]

/-- Claim C8 counterexample: when the caller's args mapping itself
contains the key `conf_file`, registering with `use_conf = True` adds no
parameter at all — `args['conf_file'] = {...}` replaces the existing
entry in place, so the synthesized parameter list is the caller's own
list and has the same length, not one more. -/
theorem make_cmd_func_conf_file_counterexample :
    Utils.make_cmd_func_params
        [("conf_file", { type := PyType.str, help := "h", default := PyVal.str "x" })]
        true
      = ["conf_file"] ∧
    (Utils.make_cmd_func_params
        [("conf_file", { type := PyType.str, help := "h", default := PyVal.str "x" })]
        true).length
      = ([("conf_file",
          ({ type := PyType.str, help := "h", default := PyVal.str "x" } : ArgDict))] :
            List (String × ArgDict)).length :=
  ⟨rfl, rfl⟩

/-- Claim C8 (amended with the proviso that the caller's args mapping
does not already contain the key `conf_file`): with `use_conf = True` the
synthesized callable's parameter list is the caller's keys with
`conf_file` appended, `conf_file`'s spec has default the empty string,
and invocation re-triggers configuration resolution through `get_conf`
with the `conf_file` value supplied at invocation time; with
`use_conf = False` the parameter list is unchanged and the invocation's
result never consults the file system (`conf` starts out empty). -/
theorem make_cmd_func_conf_file_spec (args0 : List (String × ArgDict))
    (fs : Fs) (argv : List String)
    (appName cmdName confExt confType : String)
    (locals0 : List (String × PyVal)) (cf : String)
    (hnew : "conf_file" ∉ args0.map Prod.fst)
    (hcf : dget locals0 "conf_file" = some (PyVal.str cf)) :
    Utils.make_cmd_func_params args0 true = args0.map Prod.fst ++ ["conf_file"] ∧
    dget (Utils.makeCmdArgs args0 true) "conf_file" = some Utils.confFileArg ∧
    Utils.synth_invoke fs argv appName cmdName args0 true confExt confType locals0
      = (match Utils.get_conf fs appName cmdName cf confExt confType with
        | Except.ok conf =>
          Except.ok (dupdate conf (Utils.parse_args argv
            (dinsert locals0 "conf" (PyVal.dict conf))
            (args0.map Prod.fst ++ ["conf_file"])))
        | Except.error e => Except.error e) ∧
    Utils.make_cmd_func_params args0 false = args0.map Prod.fst ∧
    Utils.synth_invoke fs argv appName cmdName args0 false confExt confType locals0
      = Except.ok (dupdate [] (Utils.parse_args argv
          (dinsert locals0 "conf" (PyVal.dict [])) (args0.map Prod.fst))) := by
  have hargs : (Utils.makeCmdArgs args0 true).map Prod.fst
      = args0.map Prod.fst ++ ["conf_file"] := by
    unfold Utils.makeCmdArgs
    rw [if_pos rfl, dinsert_append_of_not_mem args0 "conf_file" Utils.confFileArg hnew]
    simp
  refine ⟨hargs, ?_, ?_, rfl, rfl⟩
  · unfold Utils.makeCmdArgs
    rw [if_pos rfl, dget_dinsert]
    simp
  · simp only [Utils.synth_invoke, hcf, Option.getD_some, Utils.asString, if_pos,
      hargs]

/-- Witness for C8 (amended): a caller map with a single key `x` gains
exactly the `conf_file` parameter, appended last. -/
theorem make_cmd_func_conf_file_spec_witness :
    ("conf_file" ∉ ([("x", { type := PyType.int, help := "hx", default := PyVal.int 1 })]
        : List (String × ArgDict)).map Prod.fst) ∧
    dget [("x", PyVal.int 2), ("conf_file", PyVal.str "p.toml")] "conf_file"
      = some (PyVal.str "p.toml") ∧
    Utils.make_cmd_func_params
        [("x", { type := PyType.int, help := "hx", default := PyVal.int 1 })] true
      = ["x", "conf_file"] :=
  ⟨by decide, rfl,
   (make_cmd_func_conf_file_spec
      [("x", { type := PyType.int, help := "hx", default := PyVal.int 1 })]
      fsNone ["prog"] "app" "cmd" "toml" "both"
      [("x", PyVal.int 2), ("conf_file", PyVal.str "p.toml")] "p.toml"
      (by decide) rfl).1⟩

namespace Utils

/-- Every name collected by the `sys_args` loop is a declared argument
name or was already in the accumulator. -/
theorem sysArgsLoop_mem (argNames : List String) (acc l : List String) :
    ∀ x, x ∈ sysArgsLoop argNames acc l → x ∈ argNames ∨ x ∈ acc := by
  induction acc, l using sysArgsLoop.induct argNames with
  | case1 acc =>
    intro x hx
    exact Or.inr hx
  | case2 acc rest =>
    intro x hx
    simp only [sysArgsLoop, if_pos] at hx
    exact Or.inr hx
  | case3 acc tok h1 h2 nm h3 =>
    intro x hx
    simp only [sysArgsLoop, if_neg h1, if_pos h2, if_pos h3] at hx
    by_cases ha : dashesToUnderscores (pyLstripDash tok) ∈ acc
    · rw [if_pos ha] at hx
      exact Or.inr hx
    · rw [if_neg ha] at hx
      rcases List.mem_append.mp hx with h | h
      · exact Or.inr h
      · rw [List.mem_singleton.mp h]
        exact Or.inl h3
  | case4 acc tok h1 h2 nm h3 acc2 head rest2 ih =>
    intro x hx
    simp only [sysArgsLoop, if_neg h1, if_pos h2, if_pos h3] at hx
    rcases ih x hx with h | h
    · exact Or.inl h
    · have hifs : x ∈ (if nm ∈ acc then acc else acc ++ [nm]) := h
      by_cases ha : nm ∈ acc
      · rw [if_pos ha] at hifs
        exact Or.inr hifs
      · rw [if_neg ha] at hifs
        rcases List.mem_append.mp hifs with h' | h'
        · exact Or.inr h'
        · rw [List.mem_singleton.mp h']
          exact Or.inl h3
  | case5 acc tok rest h1 h2 nm h3 ih =>
    intro x hx
    simp only [sysArgsLoop, if_neg h1, if_pos h2, if_neg h3] at hx
    exact ih x hx
  | case6 acc tok rest h1 h2 ih =>
    intro x hx
    simp only [sysArgsLoop, if_neg h1, if_neg h2] at hx
    exact ih x hx

/-- Every name reported by `sys_args` is a declared argument name. -/
theorem sys_args_subset (argv argNames : List String) (x : String)
    (hx : x ∈ sys_args argv argNames) : x ∈ argNames := by
  rcases sysArgsLoop_mem argNames [] argv x hx with h | h
  · exact h
  · exact absurd h (List.not_mem_nil x)

end Utils

/-- The Python call `f(**kwargs)` for the scenario handler
`def f(test: str = 'Hello')`: a keyword other than `test` is a
`TypeError`, a missing `test` keyword falls back to the handler's own
declared default. -/
def f_handler_call (kwargs : List (String × PyVal)) : Except String PyVal :=
  if kwargs.all (fun p => p.1 == "test") then
    Except.ok ((dget kwargs "test").getD (PyVal.str "Hello"))
  else Except.error "TypeError: unexpected keyword argument"

/-- For a registration exposing the single argument `test` with
`use_conf = False`, the synthesized body forwards the dispatcher-supplied
value exactly when the `--test` flag was typed (before any bare `--`),
and forwards nothing otherwise. -/
theorem synth_invoke_single_test (fs : Fs) (argv : List String) (d v : PyVal) :
    Utils.synth_invoke fs argv "app" "cmd"
        [("test", { type := PyType.str, help := "Test argument", default := d })]
        false "toml" "both" [("test", v)]
      = Except.ok (if "test" ∈ Utils.sys_args argv ["test"] then [("test", v)] else []) := by
  have hconf : "conf" ∉ Utils.sys_args argv ["test"] := by
    intro h
    have := Utils.sys_args_subset argv ["test"] "conf" h
    simp at this
  simp only [Utils.synth_invoke, Utils.makeCmdArgs, Utils.parse_args, if_neg,
    Bool.false_eq_true, not_false_iff]
  by_cases h : "test" ∈ Utils.sys_args argv ["test"]
  · simp [dinsert, List.filter, h, hconf, dupdate]
  · simp [dinsert, List.filter, h, hconf, dupdate]

/-- Claim C9: for the handler `f(test: str = 'Hello')` registered through
`utils.make_cmd_func` with no configuration (`use_conf = False`), an
invocation with no flags on the command line forwards nothing, so `f`
runs with its own default `'Hello'`; an invocation with `--test 'Hi'`
forwards `test='Hi'`; in general exactly the values whose flags appear on
the command line (before any bare `--`) are forwarded. -/
theorem cmd_func_forwarding_scenario (fs : Fs) (d v : PyVal) :
    ((Utils.synth_invoke fs ["main.py"] "app" "cmd"
        [("test", { type := PyType.str, help := "Test argument", default := d })]
        false "toml" "both" [("test", v)]).bind f_handler_call
      = Except.ok (PyVal.str "Hello")) ∧
    ((Utils.synth_invoke fs ["main.py", "--test", "Hi"] "app" "cmd"
        [("test", { type := PyType.str, help := "Test argument", default := d })]
        false "toml" "both" [("test", PyVal.str "Hi")]).bind f_handler_call
      = Except.ok (PyVal.str "Hi")) ∧
    (∀ argv, Utils.synth_invoke fs argv "app" "cmd"
        [("test", { type := PyType.str, help := "Test argument", default := d })]
        false "toml" "both" [("test", v)]
      = Except.ok
          (if "test" ∈ Utils.sys_args argv ["test"] then [("test", v)] else [])) := by
  refine ⟨?_, ?_, fun argv => synth_invoke_single_test fs argv d v⟩
  · rw [synth_invoke_single_test fs ["main.py"] d v]
    rfl
  · rw [synth_invoke_single_test fs ["main.py", "--test", "Hi"] d (PyVal.str "Hi")]
    rfl

/-- Witness for C9: the scenario with the spec default `'default_value'`
for the exposed argument. -/
theorem cmd_func_forwarding_scenario_witness :
    ((Utils.synth_invoke fsNone ["main.py"] "app" "cmd"
        [("test", { type := PyType.str, help := "Test argument",
                    default := PyVal.str "default_value" })]
        false "toml" "both" [("test", PyVal.str "default_value")]).bind f_handler_call
      = Except.ok (PyVal.str "Hello")) ∧
    ((Utils.synth_invoke fsNone ["main.py", "--test", "Hi"] "app" "cmd"
        [("test", { type := PyType.str, help := "Test argument",
                    default := PyVal.str "default_value" })]
        false "toml" "both" [("test", PyVal.str "Hi")]).bind f_handler_call
      = Except.ok (PyVal.str "Hi")) :=
  ⟨(cmd_func_forwarding_scenario fsNone (PyVal.str "default_value")
      (PyVal.str "default_value")).1,
   (cmd_func_forwarding_scenario fsNone (PyVal.str "default_value")
      (PyVal.str "default_value")).2.1⟩

theorem list_getD_set_ne {α : Type} (l : List α) (i j : Nat) (a d : α)
    (h : i ≠ j) : (l.set i a).getD j d = l.getD j d := by
  simp [List.getD_eq_getElem?_getD, List.getElem?_set, h]

/-- Claim C10: `utils.make_cmd_func` (and the identical prefix in
`function_utils.make_cmd_func`) never mutates the caller-supplied args
mapping: the working copy produced by `deepcopy` receives the
`conf_file` insertion, and the caller's reference still holds exactly
the original entries afterwards; the returned reference is a different
one. -/
theorem make_cmd_func_caller_args_frame (s : Utils.Store) (argsRef : Nat)
    (useConf : Bool) (h : argsRef < s.dicts.length) :
    Utils.Store.get (Utils.make_cmd_func_heap s argsRef useConf).1 argsRef
      = Utils.Store.get s argsRef ∧
    (Utils.make_cmd_func_heap s argsRef useConf).2 ≠ argsRef := by
  have hlen : s.dicts.length ≠ argsRef := Nat.ne_of_gt h
  have happ : (s.dicts ++ [Utils.Store.get s argsRef]).getD argsRef []
      = s.dicts.getD argsRef [] := List.getD_append _ _ _ _ h
  cases useConf with
  | false =>
    refine ⟨?_, hlen⟩
    simp only [Utils.make_cmd_func_heap, Utils.Store.alloc, Utils.Store.get,
      Bool.false_eq_true, if_neg, not_false_iff]
    exact happ
  | true =>
    refine ⟨?_, hlen⟩
    simp only [Utils.make_cmd_func_heap, Utils.Store.alloc, Utils.Store.set,
      Utils.Store.get, if_pos]
    rw [list_getD_set_ne _ _ _ _ _ hlen]
    exact happ

/-- Witness for C10: a one-dict heap; registering with `use_conf = True`
leaves the caller's dict untouched. -/
theorem make_cmd_func_caller_args_frame_witness :
    (0 < (Utils.Store.mk
        [[("a", { type := PyType.int, help := "ha", default := PyVal.int 1 })]]).dicts.length) ∧
    Utils.Store.get
        (Utils.make_cmd_func_heap
          (Utils.Store.mk
            [[("a", { type := PyType.int, help := "ha", default := PyVal.int 1 })]])
          0 true).1 0
      = [("a", { type := PyType.int, help := "ha", default := PyVal.int 1 })] ∧
    (Utils.make_cmd_func_heap
        (Utils.Store.mk
          [[("a", { type := PyType.int, help := "ha", default := PyVal.int 1 })]])
        0 true).2 ≠ 0 :=
  ⟨by decide,
   (make_cmd_func_caller_args_frame
      (Utils.Store.mk
        [[("a", { type := PyType.int, help := "ha", default := PyVal.int 1 })]])
      0 true (by decide)).1,
   (make_cmd_func_caller_args_frame
      (Utils.Store.mk
        [[("a", { type := PyType.int, help := "ha", default := PyVal.int 1 })]])
      0 true (by decide)).2⟩
